import Mathlib

/-!
Verification development for the physiotherapy pose-detection backend.

The pose-comparison pipeline (normalization, joint angles, similarity
scoring, feedback classification, temporal smoothing, streaming output)
is embedded shallowly: keypoint coordinates and confidences, which the
program stores as floating-point numbers, are modelled as exact rationals
(every float is a rational), and the irrational operations of the code
(square root, arccos, exp) act on their casts into the reals.
-/

namespace PhysioPose

/-! ### Python rounding

`round(x, n)` in Python rounds half to even.  We model it exactly, once on
rationals (computable, for the purely rational parts of the code) and once
on reals (for values downstream of sqrt/exp/arccos). -/

/-- Round-half-to-even to the nearest integer, on rationals. -/
def rndHalfEvenQ (q : ℚ) : ℤ :=
  if q - ⌊q⌋ < 1/2 then ⌊q⌋
  else if 1/2 < q - ⌊q⌋ then ⌊q⌋ + 1
  else if ⌊q⌋ % 2 = 0 then ⌊q⌋ else ⌊q⌋ + 1

/-- Model of Python round(x, n) on rationals. -/
def pyRoundQ (q : ℚ) (n : ℕ) : ℚ := (rndHalfEvenQ (q * 10 ^ n) : ℚ) / 10 ^ n

/-- Round-half-to-even to the nearest integer, on reals. -/
noncomputable def rndHalfEvenR (x : ℝ) : ℤ :=
  if x - ⌊x⌋ < 1/2 then ⌊x⌋
  else if 1/2 < x - ⌊x⌋ then ⌊x⌋ + 1
  else if ⌊x⌋ % 2 = 0 then ⌊x⌋ else ⌊x⌋ + 1

/-- Model of Python round(x, n) on reals. -/
noncomputable def pyRoundR (x : ℝ) (n : ℕ) : ℝ := (rndHalfEvenR (x * 10 ^ n) : ℝ) / 10 ^ n

lemma rndHalfEvenQ_nonneg {q : ℚ} (hq : 0 ≤ q) : 0 ≤ rndHalfEvenQ q := by
  have hf : (0 : ℤ) ≤ ⌊q⌋ := Int.floor_nonneg.mpr hq
  unfold rndHalfEvenQ
  split_ifs <;> omega

lemma rndHalfEvenQ_le {q : ℚ} {m : ℤ} (hq : q ≤ m) : rndHalfEvenQ q ≤ m := by
  have hf : ⌊q⌋ ≤ m := by
    have := Int.floor_le_floor hq
    simpa using this
  unfold rndHalfEvenQ
  by_cases hfm : ⌊q⌋ = m
  · have hr : q - (⌊q⌋ : ℚ) < 1/2 := by
      rw [hfm]
      have := sub_nonpos.mpr hq
      linarith
    rw [if_pos hr]
    exact hf
  · have hlt : ⌊q⌋ + 1 ≤ m := by omega
    split_ifs <;> omega

lemma rndHalfEvenQ_intCast (m : ℤ) : rndHalfEvenQ (m : ℚ) = m := by
  unfold rndHalfEvenQ
  simp

lemma pyRoundQ_nonneg {q : ℚ} (n : ℕ) (hq : 0 ≤ q) : 0 ≤ pyRoundQ q n := by
  unfold pyRoundQ
  have h1 : (0 : ℤ) ≤ rndHalfEvenQ (q * 10 ^ n) :=
    rndHalfEvenQ_nonneg (by positivity)
  have h2 : (0 : ℚ) ≤ (rndHalfEvenQ (q * 10 ^ n) : ℚ) := by exact_mod_cast h1
  positivity

lemma pyRoundQ_le {q : ℚ} {m : ℤ} (n : ℕ) (hq : q ≤ m) : pyRoundQ q n ≤ m := by
  unfold pyRoundQ
  have hpow : (0 : ℚ) < 10 ^ n := by positivity
  have h1 : q * 10 ^ n ≤ ((m * 10 ^ n : ℤ) : ℚ) := by
    push_cast
    exact mul_le_mul_of_nonneg_right hq (le_of_lt hpow)
  have h2 : rndHalfEvenQ (q * 10 ^ n) ≤ m * 10 ^ n := rndHalfEvenQ_le h1
  rw [div_le_iff₀ hpow]
  exact_mod_cast h2

lemma pyRoundQ_intCast (m : ℤ) (n : ℕ) : pyRoundQ (m : ℚ) n = m := by
  unfold pyRoundQ
  have h : ((m : ℚ) * 10 ^ n) = ((m * 10 ^ n : ℤ) : ℚ) := by push_cast; ring
  rw [h, rndHalfEvenQ_intCast]
  have hpow : (0 : ℚ) < 10 ^ n := by positivity
  push_cast
  field_simp

lemma rndHalfEvenR_nonneg {x : ℝ} (hx : 0 ≤ x) : 0 ≤ rndHalfEvenR x := by
  have hf : (0 : ℤ) ≤ ⌊x⌋ := Int.floor_nonneg.mpr hx
  unfold rndHalfEvenR
  split_ifs <;> omega

lemma rndHalfEvenR_le {x : ℝ} {m : ℤ} (hx : x ≤ m) : rndHalfEvenR x ≤ m := by
  have hf : ⌊x⌋ ≤ m := by
    have := Int.floor_le_floor hx
    simpa using this
  unfold rndHalfEvenR
  by_cases hfm : ⌊x⌋ = m
  · have hr : x - (⌊x⌋ : ℝ) < 1/2 := by
      rw [hfm]
      have := sub_nonpos.mpr hx
      linarith
    rw [if_pos hr]
    exact hf
  · have hlt : ⌊x⌋ + 1 ≤ m := by omega
    split_ifs <;> omega

lemma rndHalfEvenR_intCast (m : ℤ) : rndHalfEvenR (m : ℝ) = m := by
  unfold rndHalfEvenR
  simp

lemma pyRoundR_nonneg {x : ℝ} (n : ℕ) (hx : 0 ≤ x) : 0 ≤ pyRoundR x n := by
  unfold pyRoundR
  have h1 : (0 : ℤ) ≤ rndHalfEvenR (x * 10 ^ n) :=
    rndHalfEvenR_nonneg (by positivity)
  have h2 : (0 : ℝ) ≤ (rndHalfEvenR (x * 10 ^ n) : ℝ) := by exact_mod_cast h1
  positivity

lemma pyRoundR_le {x : ℝ} {m : ℤ} (n : ℕ) (hx : x ≤ m) : pyRoundR x n ≤ m := by
  unfold pyRoundR
  have hpow : (0 : ℝ) < 10 ^ n := by positivity
  have h1 : x * 10 ^ n ≤ ((m * 10 ^ n : ℤ) : ℝ) := by
    push_cast
    exact mul_le_mul_of_nonneg_right hx (le_of_lt hpow)
  have h2 : rndHalfEvenR (x * 10 ^ n) ≤ m * 10 ^ n := rndHalfEvenR_le h1
  rw [div_le_iff₀ hpow]
  exact_mod_cast h2

lemma pyRoundR_intCast (m : ℤ) (n : ℕ) : pyRoundR (m : ℝ) n = m := by
  unfold pyRoundR
  have : ((m : ℝ) * 10 ^ n) = ((m * 10 ^ n : ℤ) : ℝ) := by push_cast; ring
  rw [this, rndHalfEvenR_intCast]
  have hpow : (0 : ℝ) < 10 ^ n := by positivity
  push_cast
  field_simp

/-! ### Data model

COCO-17 keypoints: a skeleton is a fixed-length sequence of 17
`[x, y, confidence]` entries (utils.py). -/

/-- One keypoint `[x, y, confidence]`, coordinates and confidence modelled
as exact rationals. -/
structure Keypoint where
  x : ℚ
  y : ℚ
  c : ℚ
deriving DecidableEq

/-- A skeleton: 17 ordered keypoints (COCO-17). -/
abbrev Skeleton := Fin 17 → Keypoint

/-- utils.py: minimum confidence to consider a keypoint valid. -/
def MIN_CONFIDENCE : ℚ := 3/10

/-- The 8 named joints of utils.py ANGLE_DEFINITIONS. -/
inductive Joint
  | left_elbow
  | right_elbow
  | left_shoulder
  | right_shoulder
  | left_knee
  | right_knee
  | left_hip
  | right_hip
deriving DecidableEq, Fintype

/-- The joints in the iteration order of the ANGLE_DEFINITIONS dict. -/
def jointList : List Joint :=
  [.left_elbow, .right_elbow, .left_shoulder, .right_shoulder,
   .left_knee, .right_knee, .left_hip, .right_hip]

/-- utils.py ANGLE_DEFINITIONS: (point_A, vertex, point_B) keypoint indices
for each named joint. -/
def ANGLE_DEFINITIONS : Joint → Fin 17 × Fin 17 × Fin 17
  | .left_elbow => (5, 7, 9)
  | .right_elbow => (6, 8, 10)
  | .left_shoulder => (7, 5, 11)
  | .right_shoulder => (8, 6, 12)
  | .left_knee => (11, 13, 15)
  | .right_knee => (12, 14, 16)
  | .left_hip => (5, 11, 13)
  | .right_hip => (6, 12, 14)

/-- An angle set: each of the 8 joints maps to an angle in degrees or to
"undefined" (the Python dicts map names to a float or None). -/
abbrev AngleSet := Joint → Option ℚ

/-! ### utils.py: angle computation and normalization -/

/-- The Euclidean norm of the vector p2→p1; `vnorm p1 p2` and
`vnorm p3 p2` are the two vector norms that compute_angle forms. -/
noncomputable def vnorm (p1 p2 : Keypoint) : ℝ :=
  Real.sqrt (((p1.x : ℝ) - (p2.x : ℝ)) ^ 2 + ((p1.y : ℝ) - (p2.y : ℝ)) ^ 2)

/-- utils.py compute_angle: angle at p2 between the vectors p2→p1 and
p2→p3 — arccos of the clipped normalized dot product, in degrees; 0 when
the norm of either vector is below 1e-8. -/
noncomputable def compute_angle (p1 p2 p3 : Keypoint) : ℝ :=
  if vnorm p1 p2 < 1e-8 ∨ vnorm p3 p2 < 1e-8 then 0
  else
    Real.arccos (max (-1) (min 1
      ((((p1.x : ℝ) - (p2.x : ℝ)) * ((p3.x : ℝ) - (p2.x : ℝ)) +
        ((p1.y : ℝ) - (p2.y : ℝ)) * ((p3.y : ℝ) - (p2.y : ℝ))) /
        (vnorm p1 p2 * vnorm p3 p2)))) * (180 / Real.pi)

/-- pose_engine.py PoseEngine.compute_joint_angles: for each named joint,
None when any of its three keypoints has confidence below MIN_CONFIDENCE,
otherwise the angle rounded to 2 decimals. -/
noncomputable def compute_joint_angles (keypoints : Skeleton) (name : Joint) : Option ℝ :=
  if (keypoints (ANGLE_DEFINITIONS name).1).c < MIN_CONFIDENCE ∨
     (keypoints (ANGLE_DEFINITIONS name).2.1).c < MIN_CONFIDENCE ∨
     (keypoints (ANGLE_DEFINITIONS name).2.2).c < MIN_CONFIDENCE then none
  else
    some (pyRoundR (compute_angle (keypoints (ANGLE_DEFINITIONS name).1)
      (keypoints (ANGLE_DEFINITIONS name).2.1)
      (keypoints (ANGLE_DEFINITIONS name).2.2)) 2)

/-- A keypoint after normalization: coordinates are real (divided by a
square root), confidence passes through. -/
structure RKeypoint where
  x : ℝ
  y : ℝ
  c : ℝ

/-- utils.py normalize_keypoints: the torso size, i.e. the Euclidean
distance from left_shoulder (index 5) to right_hip (index 12). -/
noncomputable def torso_size (kps : Skeleton) : ℝ :=
  Real.sqrt ((((kps 5).x : ℝ) - ((kps 12).x : ℝ)) ^ 2 +
    (((kps 5).y : ℝ) - ((kps 12).y : ℝ)) ^ 2)

/-- utils.py normalize_keypoints: the scale actually divided by — the torso
size, or 1.0 when the torso size is below 1e-8. -/
noncomputable def normScale (kps : Skeleton) : ℝ :=
  if torso_size kps < 1e-8 then 1 else torso_size kps

/-- utils.py normalize_keypoints: translate so the midpoint of the two hips
(indices 11, 12) is the origin, divide the coordinates by the scale,
keep confidences. -/
noncomputable def normalize_keypoints (kps : Skeleton) : Fin 17 → RKeypoint := fun i =>
  { x := (((kps i).x : ℝ) - (((kps 11).x : ℝ) + ((kps 12).x : ℝ)) / 2) / normScale kps
    y := (((kps i).y : ℝ) - (((kps 11).y : ℝ) + ((kps 12).y : ℝ)) / 2) / normScale kps
    c := ((kps i).c : ℝ) }

/-! ### similarity.py -/

/-- similarity.py compute_keypoint_similarity: the set of indices where
both skeletons have confidence at least MIN_CONFIDENCE. -/
def commonMask (live ref : Skeleton) : Finset (Fin 17) :=
  Finset.univ.filter fun i =>
    MIN_CONFIDENCE ≤ (live i).c ∧ MIN_CONFIDENCE ≤ (ref i).c

/-- Per-keypoint Euclidean distance between two keypoints. -/
noncomputable def kpDist (a b : Keypoint) : ℝ :=
  Real.sqrt (((a.x : ℝ) - (b.x : ℝ)) ^ 2 + ((a.y : ℝ) - (b.y : ℝ)) ^ 2)

/-- similarity.py compute_keypoint_similarity: neutral 50 when fewer than 3
jointly confident keypoints remain, otherwise the mean of exp(-2·distance)
over those keypoints, scaled by 100. -/
noncomputable def compute_keypoint_similarity (live ref : Skeleton) : ℝ :=
  let mask := commonMask live ref
  if mask.card < 3 then 50
  else (∑ i ∈ mask, Real.exp (-(2 * kpDist (live i) (ref i)))) / mask.card * 100

/-- similarity.py compute_angle_similarity: the piecewise per-joint scoring
curve applied to an absolute angle difference. -/
def angleScore (diff : ℚ) : ℚ :=
  if diff ≤ 15 then 100
  else if diff ≤ 30 then 100 - (diff - 15) * 2
  else if diff ≤ 60 then 70 - (diff - 30) * (40 / 30)
  else max 0 (30 - (diff - 60))

/-- similarity.py compute_angle_similarity: the scores collected by the
loop over ANGLE_DEFINITIONS, skipping joints where either angle is None. -/
def angleScores (live_angles ref_angles : AngleSet) : List ℚ :=
  jointList.filterMap fun name =>
    match live_angles name, ref_angles name with
    | some la, some ra => some (angleScore |la - ra|)
    | _, _ => none

/-- similarity.py compute_angle_similarity: 50 when no joint is comparable,
otherwise the mean of the per-joint scores. -/
def compute_angle_similarity (live_angles ref_angles : AngleSet) : ℚ :=
  let scores := angleScores live_angles ref_angles
  if scores = [] then 50 else scores.sum / scores.length

/-- similarity.py compute_similarity, final line: the fixed-weight blend of
the two sub-scores, clamped to [0, 100] and rounded to 1 decimal. -/
noncomputable def blendFinal (kp_score angle_score : ℝ) : ℝ :=
  pyRoundR (max 0 (min 100 (0.25 * kp_score + 0.75 * angle_score))) 1

/-- similarity.py compute_similarity. -/
noncomputable def compute_similarity (live_kps ref_kps : Skeleton)
    (live_angles ref_angles : AngleSet) : ℝ :=
  blendFinal (compute_keypoint_similarity live_kps ref_kps)
    ((compute_angle_similarity live_angles ref_angles : ℚ) : ℝ)

/-! ### feedback.py -/

/-- feedback.py ANGLE_TOLERANCE. -/
def ANGLE_TOLERANCE : ℚ := 25

/-- feedback.py GOOD_MESSAGES. -/
def GOOD_MESSAGES : Joint → String
  | .left_elbow => "Left elbow position correct"
  | .right_elbow => "Right elbow position correct"
  | .left_shoulder => "Left shoulder alignment correct"
  | .right_shoulder => "Right shoulder alignment correct"
  | .left_knee => "Left knee position correct"
  | .right_knee => "Right knee position correct"
  | .left_hip => "Left hip alignment correct"
  | .right_hip => "Right hip alignment correct"

/-- feedback.py ANGLE_ISSUE_MESSAGES, "too_small" entries. -/
def tooSmallMsg : Joint → String
  | .left_elbow => "Left elbow bent too much"
  | .right_elbow => "Right elbow bent too much"
  | .left_shoulder => "Left arm too close to body"
  | .right_shoulder => "Right arm too close to body"
  | .left_knee => "Left knee bent too much"
  | .right_knee => "Right knee bent too much"
  | .left_hip => "Left hip angle too narrow"
  | .right_hip => "Right hip angle too narrow"

/-- feedback.py ANGLE_ISSUE_MESSAGES, "too_large" entries. -/
def tooLargeMsg : Joint → String
  | .left_elbow => "Left elbow not bent enough"
  | .right_elbow => "Right elbow not bent enough"
  | .left_shoulder => "Left arm raised too high"
  | .right_shoulder => "Right arm raised too high"
  | .left_knee => "Left knee not bent enough"
  | .right_knee => "Right knee not bent enough"
  | .left_hip => "Left hip angle too wide"
  | .right_hip => "Right hip angle too wide"

/-- The positive message the feedback loop body emits for one joint, if
any: requires both angles defined and the difference within tolerance. -/
def goodOf (live_angles ref_angles : AngleSet) (name : Joint) : Option String :=
  match live_angles name, ref_angles name with
  | some lv, some rv =>
    if |lv - rv| ≤ ANGLE_TOLERANCE then some (GOOD_MESSAGES name) else none
  | _, _ => none

/-- The issue message the feedback loop body emits for one joint, if any:
requires both angles defined and the difference out of tolerance, the sign
of the difference picking the variant. -/
def issueOf (live_angles ref_angles : AngleSet) (name : Joint) : Option String :=
  match live_angles name, ref_angles name with
  | some lv, some rv =>
    if |lv - rv| ≤ ANGLE_TOLERANCE then none
    else if lv - rv < -ANGLE_TOLERANCE then some (tooSmallMsg name)
    else some (tooLargeMsg name)
  | _, _ => none

/-- feedback.py generate_feedback result record. -/
structure Feedback where
  similarity : ℚ
  confidence : ℚ
  issues : List String
  good : List String
deriving DecidableEq

/-- feedback.py generate_feedback: iterate over ANGLE_DEFINITIONS in dict
order, appending to the issues and good lists; carry the similarity through
and round the mean confidence to 2 decimals. -/
def generate_feedback (live_angles ref_angles : AngleSet)
    (similarity confidence : ℚ) : Feedback :=
  { similarity := similarity
    confidence := pyRoundQ confidence 2
    issues := jointList.filterMap (issueOf live_angles ref_angles)
    good := jointList.filterMap (goodOf live_angles ref_angles) }

/-! ### pose_engine.py: EMA smoothing -/

/-- pose_engine.py smoothing coefficient. -/
def smoothAlpha : ℚ := 6/10

/-- pose_engine.py PoseEngine.smooth_pose, modelled with the engine
`_prev_keypoints` state made explicit: the pair returned is (returned
skeleton, new state). -/
def smooth_pose (prev : Option Skeleton) (current : Skeleton) : Skeleton × Option Skeleton :=
  match prev with
  | none => (current, some current)
  | some p =>
    let smoothed : Skeleton := fun i =>
      if (current i).c < MIN_CONFIDENCE then current i
      else
        { x := smoothAlpha * (current i).x + (1 - smoothAlpha) * (p i).x
          y := smoothAlpha * (current i).y + (1 - smoothAlpha) * (p i).y
          c := (current i).c }
    (smoothed, some smoothed)

/-! ### Streaming and single-image output shaping -/

/-- websocket_handler.py _process_frame / app.py analyze_image: the
keypoints field of a result record — each detected keypoint divided by the
frame width and height, rounded to 5 decimals (4 for confidence). -/
def relative_kps (w h : ℚ) (keypoints : Skeleton) : Fin 17 → ℚ × ℚ × ℚ := fun i =>
  (pyRoundQ ((keypoints i).x / w) 5,
   pyRoundQ ((keypoints i).y / h) 5,
   pyRoundQ (keypoints i).c 4)

/-- app.py analyze_image: the rendering of one angle value in the
live_angles and reference_angles response fields — the Python expression
`round(v, 1) if v else None`, where both None and 0.0 are falsy. -/
def render_angle (v : Option ℚ) : Option ℚ :=
  match v with
  | none => none
  | some x => if x = 0 then none else some (pyRoundQ x 1)

/-! ### Theorems -/

/-- C10: in the single-image analysis response, a defined joint angle equal
to exactly 0.0 degrees is rendered as null, just like an undefined angle,
so the two are indistinguishable at the interface; every other defined
angle is rendered as a number rounded to 1 decimal. -/
theorem render_angle_zero_indistinguishable :
    render_angle (some 0) = none ∧
    render_angle none = none ∧
    render_angle (some 0) = render_angle none ∧
    ∀ v : ℚ, v ≠ 0 → render_angle (some v) = some (pyRoundQ v 1) := by
  refine ⟨by simp [render_angle], rfl, by simp [render_angle], ?_⟩
  intro v hv
  simp [render_angle, hv]

/-- C10 witness: a nonzero defined angle is rendered as a rounded number. -/
theorem render_angle_zero_indistinguishable_witness :
    render_angle (some 5) = some (pyRoundQ 5 1) :=
  render_angle_zero_indistinguishable.2.2.2 5 (by norm_num)

/-- C7: on the first frame the current skeleton is stored and returned
unchanged; on later frames a keypoint with current confidence at least the
threshold is blended as 0.6·current + 0.4·previous per coordinate (so
previous (10,10) and current (20,20) give (16,16)), while a keypoint with
current confidence below the threshold is returned unchanged. -/
theorem smooth_pose_spec :
    (∀ current : Skeleton, smooth_pose none current = (current, some current)) ∧
    (∀ (p current : Skeleton) (i : Fin 17),
      ((current i).c < MIN_CONFIDENCE →
        (smooth_pose (some p) current).1 i = current i) ∧
      (MIN_CONFIDENCE ≤ (current i).c →
        (smooth_pose (some p) current).1 i =
          { x := 6/10 * (current i).x + 4/10 * (p i).x
            y := 6/10 * (current i).y + 4/10 * (p i).y
            c := (current i).c })) ∧
    (∀ (p current : Skeleton) (i : Fin 17),
      p i = ⟨10, 10, 1⟩ → current i = ⟨20, 20, 1⟩ →
      (smooth_pose (some p) current).1 i = ⟨16, 16, 1⟩) := by
  refine ⟨fun _ => rfl, ?_, ?_⟩
  · intro p current i
    constructor
    · intro h
      simp only [smooth_pose]
      rw [if_pos h]
    · intro h
      simp only [smooth_pose]
      rw [if_neg (not_lt.mpr h)]
      have h1 : (1 : ℚ) - smoothAlpha = 4/10 := by norm_num [smoothAlpha]
      rw [h1]
      norm_num [smoothAlpha]
  · intro p current i hp hc
    simp only [smooth_pose]
    rw [if_neg (by rw [hc]; norm_num [MIN_CONFIDENCE])]
    rw [hp, hc]
    norm_num [smoothAlpha]

/-- C7 witness: first-frame passthrough and a concrete blended frame. -/
theorem smooth_pose_spec_witness :
    smooth_pose none (fun _ => (⟨20, 20, 1⟩ : Keypoint)) =
      ((fun _ => (⟨20, 20, 1⟩ : Keypoint)), some (fun _ => (⟨20, 20, 1⟩ : Keypoint))) ∧
    (smooth_pose (some fun _ => (⟨10, 10, 1⟩ : Keypoint))
      (fun _ => (⟨20, 20, 1⟩ : Keypoint))).1 0 = ⟨16, 16, 1⟩ ∧
    (smooth_pose (some fun _ => (⟨10, 10, 1⟩ : Keypoint))
      (fun _ => (⟨20, 20, 1/10⟩ : Keypoint))).1 0 = ⟨20, 20, 1/10⟩ :=
  ⟨smooth_pose_spec.1 _,
   smooth_pose_spec.2.2 _ _ 0 rfl rfl,
   (smooth_pose_spec.2.1 _ _ 0).1 (by norm_num [MIN_CONFIDENCE])⟩

/-- C2: the angle sub-score maps each absolute difference of a comparable
joint through the fixed piecewise curve, averages over the comparable
joints, and returns exactly 50 when none is comparable; the curve is
continuous at its band boundaries and never negative. -/
theorem angle_similarity_spec :
    (∀ d : ℚ,
      (d ≤ 15 → angleScore d = 100) ∧
      (15 < d → d ≤ 30 → angleScore d = 100 - (d - 15) * 2) ∧
      (30 < d → d ≤ 60 → angleScore d = 70 - (d - 30) * (40 / 30)) ∧
      (60 < d → angleScore d = max 0 (30 - (d - 60)))) ∧
    (angleScore 15 = 100 ∧ angleScore 30 = 70 ∧ angleScore 60 = 30 ∧
      angleScore 75 = 15 ∧ angleScore 90 = 0) ∧
    (∀ d : ℚ, 0 ≤ angleScore d) ∧
    (∀ live ref : AngleSet,
      angleScores live ref =
        jointList.filterMap (fun name =>
          match live name, ref name with
          | some la, some ra => some (angleScore |la - ra|)
          | _, _ => none)) ∧
    (∀ live ref : AngleSet, angleScores live ref = [] →
      compute_angle_similarity live ref = 50) ∧
    (∀ live ref : AngleSet, angleScores live ref ≠ [] →
      compute_angle_similarity live ref =
        (angleScores live ref).sum / (angleScores live ref).length) := by
  refine ⟨?_, by norm_num [angleScore], ?_, fun _ _ => rfl, ?_, ?_⟩
  · intro d
    refine ⟨?_, ?_, ?_, ?_⟩
    · intro h
      simp [angleScore, h]
    · intro h1 h2
      unfold angleScore
      rw [if_neg (by linarith), if_pos h2]
    · intro h1 h2
      unfold angleScore
      rw [if_neg (by linarith), if_neg (by linarith), if_pos h2]
    · intro h1
      unfold angleScore
      rw [if_neg (by linarith), if_neg (by linarith), if_neg (by linarith)]
  · intro d
    unfold angleScore
    split_ifs with h1 h2 h3
    · norm_num
    · push_neg at h1
      linarith
    · push_neg at h1 h2
      linarith
    · exact le_max_left 0 _
  · intro live ref h
    unfold compute_angle_similarity
    rw [if_pos h]
  · intro live ref h
    unfold compute_angle_similarity
    rw [if_neg h]

/-- C2 witness: the curve evaluated in every band, the neutral case, and a
nonempty averaging case. -/
theorem angle_similarity_spec_witness :
    angleScore 10 = 100 ∧
    angleScore 20 = 100 - (20 - 15) * 2 ∧
    angleScore 40 = 70 - (40 - 30) * (40 / 30) ∧
    angleScore 70 = max 0 (30 - (70 - 60)) ∧
    compute_angle_similarity (fun _ => none) (fun _ => none) = 50 ∧
    compute_angle_similarity (fun _ => some 100) (fun _ => some 80) =
      (angleScores (fun _ => some 100) (fun _ => some 80)).sum /
        (angleScores (fun _ => some 100) (fun _ => some 80)).length :=
  ⟨(angle_similarity_spec.1 10).1 (by norm_num),
   (angle_similarity_spec.1 20).2.1 (by norm_num) (by norm_num),
   (angle_similarity_spec.1 40).2.2.1 (by norm_num) (by norm_num),
   (angle_similarity_spec.1 70).2.2.2 (by norm_num),
   angle_similarity_spec.2.2.2.2.1 _ _ rfl,
   angle_similarity_spec.2.2.2.2.2 _ _ (by decide)⟩

/-- C9 counterexample: the result-record keypoints are not always in
[0, 1].  The code divides by the frame size without clamping, so a
detected keypoint whose pixel coordinate lies outside the frame (which the
external detector can produce) gives a relative coordinate above 1: with
frame 100×100 and a keypoint at x = 200, the emitted x_rel is 2. -/
theorem relative_kps_not_always_unit :
    (relative_kps 100 100 (fun _ => ⟨200, 50, 1/2⟩) 0).1 = 2 ∧
    ¬((relative_kps 100 100 (fun _ => ⟨200, 50, 1/2⟩) 0).1 ≤ 1) := by
  have h : (relative_kps 100 100 (fun _ => ⟨200, 50, 1/2⟩) 0).1 = 2 := by
    show pyRoundQ ((200 : ℚ) / 100) 5 = 2
    have h2 : ((200 : ℚ) / 100) = ((2 : ℤ) : ℚ) := by norm_num
    rw [h2, pyRoundQ_intCast]
    norm_num
  exact ⟨h, by rw [h]; norm_num⟩

/-- C9 amended: each entry of the keypoints field is the triple of the
detected pixel coordinates divided by the frame width and height (rounded
to 5 decimals) and the confidence (rounded to 4 decimals); whenever the
detected coordinates lie within the frame bounds and the confidence is in
[0, 1], all three components are in [0, 1]. -/
theorem relative_kps_unit_range (w h : ℚ) (kps : Skeleton) (i : Fin 17)
    (hw : 0 < w) (hh : 0 < h)
    (hx0 : 0 ≤ (kps i).x) (hxw : (kps i).x ≤ w)
    (hy0 : 0 ≤ (kps i).y) (hyh : (kps i).y ≤ h)
    (hc0 : 0 ≤ (kps i).c) (hc1 : (kps i).c ≤ 1) :
    relative_kps w h kps i =
      (pyRoundQ ((kps i).x / w) 5, pyRoundQ ((kps i).y / h) 5,
        pyRoundQ (kps i).c 4) ∧
    (0 ≤ (relative_kps w h kps i).1 ∧ (relative_kps w h kps i).1 ≤ 1) ∧
    (0 ≤ (relative_kps w h kps i).2.1 ∧ (relative_kps w h kps i).2.1 ≤ 1) ∧
    (0 ≤ (relative_kps w h kps i).2.2 ∧ (relative_kps w h kps i).2.2 ≤ 1) := by
  have hx : 0 ≤ (kps i).x / w ∧ (kps i).x / w ≤ 1 :=
    ⟨div_nonneg hx0 (le_of_lt hw), (div_le_one hw).mpr hxw⟩
  have hy : 0 ≤ (kps i).y / h ∧ (kps i).y / h ≤ 1 :=
    ⟨div_nonneg hy0 (le_of_lt hh), (div_le_one hh).mpr hyh⟩
  refine ⟨rfl, ?_, ?_, ?_⟩
  · refine ⟨pyRoundQ_nonneg 5 hx.1, ?_⟩
    have h1 := pyRoundQ_le (q := (kps i).x / w) (m := 1) 5 (by exact_mod_cast hx.2)
    exact_mod_cast h1
  · refine ⟨pyRoundQ_nonneg 5 hy.1, ?_⟩
    have h1 := pyRoundQ_le (q := (kps i).y / h) (m := 1) 5 (by exact_mod_cast hy.2)
    exact_mod_cast h1
  · refine ⟨pyRoundQ_nonneg 4 hc0, ?_⟩
    have h1 := pyRoundQ_le (q := (kps i).c) (m := 1) 4 (by exact_mod_cast hc1)
    exact_mod_cast h1

/-- C9 witness: an in-frame skeleton keeps every emitted component in
[0, 1]. -/
theorem relative_kps_unit_range_witness :
    relative_kps 100 200 (fun _ => ⟨50, 120, 9/10⟩) 0 =
      (pyRoundQ ((50 : ℚ) / 100) 5, pyRoundQ ((120 : ℚ) / 200) 5,
        pyRoundQ (9/10 : ℚ) 4) ∧
    (0 ≤ (relative_kps 100 200 (fun _ => ⟨50, 120, 9/10⟩) 0).1 ∧
      (relative_kps 100 200 (fun _ => ⟨50, 120, 9/10⟩) 0).1 ≤ 1) ∧
    (0 ≤ (relative_kps 100 200 (fun _ => ⟨50, 120, 9/10⟩) 0).2.1 ∧
      (relative_kps 100 200 (fun _ => ⟨50, 120, 9/10⟩) 0).2.1 ≤ 1) ∧
    (0 ≤ (relative_kps 100 200 (fun _ => ⟨50, 120, 9/10⟩) 0).2.2 ∧
      (relative_kps 100 200 (fun _ => ⟨50, 120, 9/10⟩) 0).2.2 ≤ 1) :=
  relative_kps_unit_range 100 200 (fun _ => ⟨50, 120, 9/10⟩) 0
    (by norm_num) (by norm_num) (by norm_num) (by norm_num)
    (by norm_num) (by norm_num) (by norm_num) (by norm_num)

/-- C1: the final similarity score is the fixed-weight blend 0.25·positional
+ 0.75·angle, clamped to [0, 100] and rounded to 1 decimal; the blend of
(0, 0) is 0, the blend of (100, 100) is 100, and the blend of any pair of
sub-scores lies in [0, 100]. -/
theorem similarity_blend_spec :
    (∀ (live_kps ref_kps : Skeleton) (live_angles ref_angles : AngleSet),
      compute_similarity live_kps ref_kps live_angles ref_angles =
        pyRoundR (max 0 (min 100
          (0.25 * compute_keypoint_similarity live_kps ref_kps +
           0.75 * ((compute_angle_similarity live_angles ref_angles : ℚ) : ℝ)))) 1) ∧
    blendFinal 0 0 = 0 ∧
    blendFinal 100 100 = 100 ∧
    (∀ p a : ℝ, 0 ≤ blendFinal p a ∧ blendFinal p a ≤ 100) := by
  have h100 : ((100 : ℤ) : ℝ) = 100 := by norm_num
  have h0 : ((0 : ℤ) : ℝ) = 0 := by norm_num
  refine ⟨fun _ _ _ _ => rfl, ?_, ?_, ?_⟩
  · unfold blendFinal
    have hz : max (0 : ℝ) (min 100 (0.25 * 0 + 0.75 * 0)) = 0 := by norm_num
    rw [hz]
    have := pyRoundR_intCast 0 1
    rwa [h0] at this
  · unfold blendFinal
    have hz : max (0 : ℝ) (min 100 (0.25 * 100 + 0.75 * 100)) = 100 := by norm_num
    rw [hz]
    have := pyRoundR_intCast 100 1
    rwa [h100] at this
  · intro p a
    unfold blendFinal
    constructor
    · exact pyRoundR_nonneg 1 (le_max_left 0 _)
    · have hle : max (0 : ℝ) (min 100 (0.25 * p + 0.75 * a)) ≤ ((100 : ℤ) : ℝ) := by
        rw [h100]
        exact max_le (by norm_num) (min_le_left _ _)
      have := pyRoundR_le (m := 100) 1 hle
      rwa [h100] at this

/-- C3: the positional sub-score uses only keypoints where both
confidences meet the 0.3 threshold; with fewer than 3 such keypoints it is
exactly 50, and otherwise it is 100 times the mean of exp(-2·distance)
over those keypoints, distance being Euclidean in normalized space. -/
theorem keypoint_similarity_spec (live ref : Skeleton) :
    MIN_CONFIDENCE = 3/10 ∧
    (∀ i, i ∈ commonMask live ref ↔
      MIN_CONFIDENCE ≤ (live i).c ∧ MIN_CONFIDENCE ≤ (ref i).c) ∧
    ((commonMask live ref).card < 3 → compute_keypoint_similarity live ref = 50) ∧
    (3 ≤ (commonMask live ref).card →
      compute_keypoint_similarity live ref =
        100 * ((∑ i ∈ commonMask live ref,
          Real.exp (-(2 * kpDist (live i) (ref i)))) / (commonMask live ref).card)) := by
  refine ⟨rfl, ?_, ?_, ?_⟩
  · intro i
    simp [commonMask]
  · intro h
    unfold compute_keypoint_similarity
    rw [if_pos h]
  · intro h
    unfold compute_keypoint_similarity
    rw [if_neg (not_lt.mpr h)]
    ring

/-- C3 witness: an all-low-confidence pair scores exactly 50, and an
all-high-confidence pair takes the exponential-mean branch. -/
theorem keypoint_similarity_spec_witness :
    compute_keypoint_similarity (fun _ => ⟨0, 0, 0⟩) (fun _ => ⟨0, 0, 0⟩) = 50 ∧
    compute_keypoint_similarity (fun _ => ⟨0, 0, 1⟩) (fun _ => ⟨0, 0, 1⟩) =
      100 * ((∑ i ∈ commonMask (fun _ => ⟨0, 0, 1⟩) (fun _ => ⟨0, 0, 1⟩),
        Real.exp (-(2 * kpDist ((fun _ => (⟨0, 0, 1⟩ : Keypoint)) i)
          ((fun _ => (⟨0, 0, 1⟩ : Keypoint)) i)))) /
        (commonMask (fun _ => ⟨0, 0, 1⟩) (fun _ => ⟨0, 0, 1⟩)).card) := by
  have hlow : commonMask (fun _ => ⟨0, 0, 0⟩) (fun _ => ⟨0, 0, 0⟩) = ∅ := by
    rw [commonMask, Finset.filter_eq_empty_iff]
    intro i _
    norm_num [MIN_CONFIDENCE]
  have hhigh : commonMask (fun _ => ⟨0, 0, 1⟩) (fun _ => ⟨0, 0, 1⟩) = Finset.univ := by
    rw [commonMask]
    apply Finset.filter_true_of_mem
    intro i _
    norm_num [MIN_CONFIDENCE]
  refine ⟨(keypoint_similarity_spec _ _).2.2.1 ?_, (keypoint_similarity_spec _ _).2.2.2 ?_⟩
  · rw [hlow]
    norm_num
  · rw [hhigh]
    simp

/-! ### Helper lemmas for the geometry claims -/

lemma eps_le_sqrt {a : ℝ} (ha : 1 ≤ a) : (1e-8 : ℝ) ≤ Real.sqrt a := by
  have h1 : (1 : ℝ) ≤ Real.sqrt a := by
    rw [show (1 : ℝ) = Real.sqrt 1 from Eq.symm Real.sqrt_one]
    exact Real.sqrt_le_sqrt ha
  linarith

lemma compute_angle_nonneg (p1 p2 p3 : Keypoint) : 0 ≤ compute_angle p1 p2 p3 := by
  unfold compute_angle
  split_ifs with h
  · exact le_refl 0
  · have hpi : (0 : ℝ) < 180 / Real.pi := by positivity
    exact mul_nonneg (Real.arccos_nonneg _) (le_of_lt hpi)

lemma compute_angle_le_180 (p1 p2 p3 : Keypoint) : compute_angle p1 p2 p3 ≤ 180 := by
  unfold compute_angle
  split_ifs with h
  · norm_num
  · have h1 := Real.arccos_le_pi (max (-1) (min 1
      ((((p1.x : ℝ) - (p2.x : ℝ)) * ((p3.x : ℝ) - (p2.x : ℝ)) +
        ((p1.y : ℝ) - (p2.y : ℝ)) * ((p3.y : ℝ) - (p2.y : ℝ))) /
        (vnorm p1 p2 * vnorm p3 p2))))
    have hpi : (0 : ℝ) < 180 / Real.pi := by positivity
    calc Real.arccos _ * (180 / Real.pi) ≤ Real.pi * (180 / Real.pi) :=
          mul_le_mul_of_nonneg_right h1 (le_of_lt hpi)
      _ = 180 := by
          field_simp

/-- C4: a joint angle is undefined (None) whenever any of its three
defining keypoints has confidence below 0.3; otherwise it is a number in
[0, 180] degrees; and when either bone vector has norm below epsilon the
computed angle is exactly 0 rather than an error. -/
theorem joint_angles_spec (kps : Skeleton) (j : Joint) :
    (((kps (ANGLE_DEFINITIONS j).1).c < MIN_CONFIDENCE ∨
      (kps (ANGLE_DEFINITIONS j).2.1).c < MIN_CONFIDENCE ∨
      (kps (ANGLE_DEFINITIONS j).2.2).c < MIN_CONFIDENCE) →
      compute_joint_angles kps j = none) ∧
    (¬((kps (ANGLE_DEFINITIONS j).1).c < MIN_CONFIDENCE ∨
       (kps (ANGLE_DEFINITIONS j).2.1).c < MIN_CONFIDENCE ∨
       (kps (ANGLE_DEFINITIONS j).2.2).c < MIN_CONFIDENCE) →
      ∃ θ : ℝ, compute_joint_angles kps j = some θ ∧ 0 ≤ θ ∧ θ ≤ 180) ∧
    (∀ p1 p2 p3 : Keypoint, vnorm p1 p2 < 1e-8 ∨ vnorm p3 p2 < 1e-8 →
      compute_angle p1 p2 p3 = 0) ∧
    (¬((kps (ANGLE_DEFINITIONS j).1).c < MIN_CONFIDENCE ∨
       (kps (ANGLE_DEFINITIONS j).2.1).c < MIN_CONFIDENCE ∨
       (kps (ANGLE_DEFINITIONS j).2.2).c < MIN_CONFIDENCE) →
      (vnorm (kps (ANGLE_DEFINITIONS j).1) (kps (ANGLE_DEFINITIONS j).2.1) < 1e-8 ∨
       vnorm (kps (ANGLE_DEFINITIONS j).2.2) (kps (ANGLE_DEFINITIONS j).2.1) < 1e-8) →
      compute_joint_angles kps j = some 0) := by
  have hdeg : ∀ p1 p2 p3 : Keypoint, vnorm p1 p2 < 1e-8 ∨ vnorm p3 p2 < 1e-8 →
      compute_angle p1 p2 p3 = 0 := by
    intro p1 p2 p3 h
    unfold compute_angle
    rw [if_pos h]
  refine ⟨?_, ?_, hdeg, ?_⟩
  · intro h
    unfold compute_joint_angles
    rw [if_pos h]
  · intro h
    unfold compute_joint_angles
    rw [if_neg h]
    refine ⟨_, rfl, ?_, ?_⟩
    · exact pyRoundR_nonneg 2 (compute_angle_nonneg _ _ _)
    · have hle : compute_angle (kps (ANGLE_DEFINITIONS j).1)
          (kps (ANGLE_DEFINITIONS j).2.1) (kps (ANGLE_DEFINITIONS j).2.2) ≤
          ((180 : ℤ) : ℝ) := by
        exact_mod_cast compute_angle_le_180 _ _ _
      have h2 := pyRoundR_le (m := 180) 2 hle
      exact_mod_cast h2
  · intro h hv
    unfold compute_joint_angles
    rw [if_neg h, hdeg _ _ _ hv]
    have h0 := pyRoundR_intCast 0 2
    norm_num at h0
    rw [h0]

/-- C4 witness: a low-confidence skeleton gives an undefined angle, an
all-confident skeleton gives a numeric angle in [0, 180], and coincident
points give an angle of exactly 0. -/
theorem joint_angles_spec_witness :
    compute_joint_angles (fun _ => ⟨0, 0, 0⟩) .left_elbow = none ∧
    (∃ θ : ℝ, compute_joint_angles (fun _ => ⟨7, 3, 1⟩) .left_elbow = some θ ∧
      0 ≤ θ ∧ θ ≤ 180) ∧
    compute_angle ⟨0, 0, 1⟩ ⟨0, 0, 1⟩ ⟨5, 5, 1⟩ = 0 ∧
    compute_joint_angles (fun _ => ⟨7, 3, 1⟩) .left_elbow = some 0 := by
  have hv : vnorm (⟨7, 3, 1⟩ : Keypoint) ⟨7, 3, 1⟩ < 1e-8 := by
    unfold vnorm
    norm_num [Real.sqrt_zero]
  refine ⟨?_, ?_, ?_, ?_⟩
  · exact (joint_angles_spec _ .left_elbow).1 (Or.inl (by norm_num [MIN_CONFIDENCE]))
  · exact (joint_angles_spec _ .left_elbow).2.1 (by norm_num [MIN_CONFIDENCE, ANGLE_DEFINITIONS])
  · refine (joint_angles_spec (fun _ => ⟨0, 0, 0⟩) .left_elbow).2.2.1 _ _ _ (Or.inl ?_)
    unfold vnorm
    norm_num [Real.sqrt_zero]
  · exact (joint_angles_spec _ .left_elbow).2.2.2
      (by norm_num [MIN_CONFIDENCE, ANGLE_DEFINITIONS]) (Or.inl hv)

/-- A degenerate skeleton: every keypoint at the same position. -/
def skSame : Skeleton := fun _ => ⟨1, 2, 1⟩

/-- A skeleton whose torso (left shoulder to right hip) has length 5. -/
def skWide : Skeleton := fun i =>
  if i.val = 5 then ⟨0, 0, 1⟩ else if i.val = 12 then ⟨3, 4, 1⟩ else ⟨1, 1, 1⟩

lemma skWide_5 : skWide 5 = ⟨0, 0, 1⟩ := rfl

lemma skWide_11 : skWide 11 = ⟨1, 1, 1⟩ := rfl

lemma skWide_12 : skWide 12 = ⟨3, 4, 1⟩ := rfl

/-- C5: normalization translates so the hip midpoint is the origin and
divides by the left-shoulder-to-right-hip distance, substituting scale 1.0
when that distance is below 1e-8 — so the divisor is never below 1e-8 —
and passes all confidences through unchanged. -/
theorem normalize_keypoints_spec (kps : Skeleton) :
    (1e-8 : ℝ) ≤ normScale kps ∧
    (torso_size kps < 1e-8 → normScale kps = 1) ∧
    (¬(torso_size kps < 1e-8) → normScale kps = torso_size kps) ∧
    (∀ i, normalize_keypoints kps i =
      { x := (((kps i).x : ℝ) - (((kps 11).x : ℝ) + ((kps 12).x : ℝ)) / 2) / normScale kps
        y := (((kps i).y : ℝ) - (((kps 11).y : ℝ) + ((kps 12).y : ℝ)) / 2) / normScale kps
        c := ((kps i).c : ℝ) }) ∧
    (((normalize_keypoints kps 11).x + (normalize_keypoints kps 12).x) / 2 = 0 ∧
     ((normalize_keypoints kps 11).y + (normalize_keypoints kps 12).y) / 2 = 0) ∧
    (∀ i, (normalize_keypoints kps i).c = ((kps i).c : ℝ)) := by
  have hscale : (1e-8 : ℝ) ≤ normScale kps := by
    unfold normScale
    split_ifs with h
    · norm_num
    · exact le_of_not_lt h
  have hmid : ∀ a b s : ℝ, s ≠ 0 →
      ((a - (a + b) / 2) / s + (b - (a + b) / 2) / s) / 2 = 0 := by
    intro a b s hs
    rw [div_add_div_same]
    rw [show a - (a + b) / 2 + (b - (a + b) / 2) = 0 by ring]
    rw [zero_div, zero_div]
  have hs0 : normScale kps ≠ 0 := by
    intro h0
    rw [h0] at hscale
    norm_num at hscale
  refine ⟨hscale, ?_, ?_, fun i => rfl, ⟨hmid _ _ _ hs0, hmid _ _ _ hs0⟩, fun i => rfl⟩
  · intro h
    unfold normScale
    rw [if_pos h]
  · intro h
    unfold normScale
    rw [if_neg h]

/-- C5 witness: a degenerate torso substitutes scale 1, a torso of length
5 keeps its own length as the scale, and hips land on the origin. -/
theorem normalize_keypoints_spec_witness :
    normScale skSame = 1 ∧
    normScale skWide = torso_size skWide ∧
    ((normalize_keypoints skWide 11).x + (normalize_keypoints skWide 12).x) / 2 = 0 := by
  refine ⟨(normalize_keypoints_spec skSame).2.1 ?_,
    (normalize_keypoints_spec skWide).2.2.1 ?_,
    (normalize_keypoints_spec skWide).2.2.2.2.1.1⟩
  · unfold torso_size skSame
    norm_num [Real.sqrt_zero]
  · apply not_lt.mpr
    unfold torso_size
    rw [skWide_5, skWide_12]
    apply eps_le_sqrt
    norm_num

/-- A rigid translation by (tx, ty) composed with a uniform scale s,
applied to every keypoint coordinate; confidences untouched. -/
def transformSk (s tx ty : ℚ) (kps : Skeleton) : Skeleton := fun i =>
  ⟨s * (kps i).x + tx, s * (kps i).y + ty, (kps i).c⟩

lemma torso_size_transform (kps : Skeleton) (s tx ty : ℚ) (hs : 0 < s) :
    torso_size (transformSk s tx ty kps) = (s : ℝ) * torso_size kps := by
  have hsR : (0 : ℝ) ≤ (s : ℝ) := by positivity
  unfold torso_size transformSk
  push_cast
  rw [show ((s : ℝ) * ((kps 5).x : ℝ) + (tx : ℝ) - ((s : ℝ) * ((kps 12).x : ℝ) + (tx : ℝ))) ^ 2 +
      ((s : ℝ) * ((kps 5).y : ℝ) + (ty : ℝ) - ((s : ℝ) * ((kps 12).y : ℝ) + (ty : ℝ))) ^ 2 =
      (s : ℝ) ^ 2 * ((((kps 5).x : ℝ) - ((kps 12).x : ℝ)) ^ 2 +
        (((kps 5).y : ℝ) - ((kps 12).y : ℝ)) ^ 2) from by ring]
  rw [Real.sqrt_mul (sq_nonneg _), Real.sqrt_sq hsR]

/-- C8: for a skeleton with a non-degenerate torso, applying any rigid
translation and uniform positive scale (itself leaving the torso
non-degenerate) before normalizing yields the same normalized output, with
confidences unchanged in both. -/
theorem normalize_invariance (kps : Skeleton) (s tx ty : ℚ)
    (hs : 0 < s)
    (h1 : (1e-8 : ℝ) ≤ torso_size kps)
    (h2 : (1e-8 : ℝ) ≤ torso_size (transformSk s tx ty kps)) :
    normalize_keypoints (transformSk s tx ty kps) = normalize_keypoints kps ∧
    (∀ i, (transformSk s tx ty kps i).c = (kps i).c) ∧
    (∀ i, (normalize_keypoints (transformSk s tx ty kps) i).c = ((kps i).c : ℝ)) := by
  have hsR : (0 : ℝ) < (s : ℝ) := by exact_mod_cast hs
  have hn1 : normScale kps = torso_size kps := by
    unfold normScale
    rw [if_neg (not_lt.mpr h1)]
  have hn2 : normScale (transformSk s tx ty kps) = (s : ℝ) * torso_size kps := by
    unfold normScale
    rw [if_neg (not_lt.mpr h2)]
    exact torso_size_transform kps s tx ty hs
  have key : ∀ t a b c : ℚ,
      (((s * a + t : ℚ) : ℝ) - (((s * b + t : ℚ) : ℝ) + ((s * c + t : ℚ) : ℝ)) / 2) /
        ((s : ℝ) * torso_size kps) =
      ((a : ℝ) - ((b : ℝ) + (c : ℝ)) / 2) / torso_size kps := by
    intro t a b c
    push_cast
    rw [show (s : ℝ) * (a : ℝ) + (t : ℝ) -
        ((s : ℝ) * (b : ℝ) + (t : ℝ) + ((s : ℝ) * (c : ℝ) + (t : ℝ))) / 2 =
        (s : ℝ) * ((a : ℝ) - ((b : ℝ) + (c : ℝ)) / 2) from by ring]
    exact mul_div_mul_left _ _ (ne_of_gt hsR)
  refine ⟨?_, fun i => rfl, fun i => rfl⟩
  funext i
  show RKeypoint.mk _ _ _ = RKeypoint.mk _ _ _
  rw [RKeypoint.mk.injEq]
  refine ⟨?_, ?_, rfl⟩
  · show (((transformSk s tx ty kps i).x : ℝ) -
        (((transformSk s tx ty kps 11).x : ℝ) + ((transformSk s tx ty kps 12).x : ℝ)) / 2) /
        normScale (transformSk s tx ty kps) = _
    rw [hn2, hn1]
    exact key tx (kps i).x (kps 11).x (kps 12).x
  · show (((transformSk s tx ty kps i).y : ℝ) -
        (((transformSk s tx ty kps 11).y : ℝ) + ((transformSk s tx ty kps 12).y : ℝ)) / 2) /
        normScale (transformSk s tx ty kps) = _
    rw [hn2, hn1]
    exact key ty (kps i).y (kps 11).y (kps 12).y

/-- C8 witness: scaling a concrete skeleton by 2 and translating by (3, 4)
leaves its normalized output unchanged. -/
theorem normalize_invariance_witness :
    normalize_keypoints (transformSk 2 3 4 skWide) = normalize_keypoints skWide ∧
    (∀ i, (transformSk 2 3 4 skWide i).c = (skWide i).c) ∧
    (∀ i, (normalize_keypoints (transformSk 2 3 4 skWide) i).c = ((skWide i).c : ℝ)) := by
  have hw : (1e-8 : ℝ) ≤ torso_size skWide := by
    unfold torso_size
    rw [skWide_5, skWide_12]
    apply eps_le_sqrt
    norm_num
  have hw2 : (1e-8 : ℝ) ≤ torso_size (transformSk 2 3 4 skWide) := by
    rw [torso_size_transform skWide 2 3 4 (by norm_num)]
    have h5 : (1 : ℝ) ≤ torso_size skWide := by
      unfold torso_size
      rw [skWide_5, skWide_12]
      rw [show (1 : ℝ) = Real.sqrt 1 from Eq.symm Real.sqrt_one]
      apply Real.sqrt_le_sqrt
      norm_num
    push_cast
    nlinarith
  exact normalize_invariance skWide 2 3 4 (by norm_num) hw hw2

/-! ### Helper lemmas for the feedback claim -/

lemma count_filterMap_eq_zero {α β : Type} [DecidableEq β] (f : α → Option β) (b : β)
    (l : List α) (h : ∀ a ∈ l, f a ≠ some b) : (l.filterMap f).count b = 0 := by
  rw [List.count_eq_zero]
  intro hb
  obtain ⟨a, ha, hfa⟩ := List.mem_filterMap.mp hb
  exact h a ha hfa

lemma count_filterMap_eq_one {α β : Type} [DecidableEq α] [DecidableEq β]
    (f : α → Option β) (b : β) (j : α)
    (hj : f j = some b) (hother : ∀ a, a ≠ j → f a ≠ some b) :
    ∀ l : List α, l.count j = 1 → (l.filterMap f).count b = 1 := by
  intro l
  induction l with
  | nil => intro h; simp at h
  | cons hd tl ih =>
    intro hcount
    rw [List.filterMap_cons]
    by_cases hhd : hd = j
    · subst hhd
      have htl : tl.count hd = 0 := by
        rw [List.count_cons_self] at hcount
        omega
      have hzero : (tl.filterMap f).count b = 0 := by
        apply count_filterMap_eq_zero
        intro a ha hfa
        by_cases haj : a = hd
        · subst haj
          have : 0 < tl.count a := List.count_pos_iff.mpr ha
          omega
        · exact hother a haj hfa
      rw [hj, List.count_cons_self, hzero]
    · have hja : j ≠ hd := fun he => hhd he.symm
      have hcount' : tl.count j = 1 := by
        rw [List.count_cons_of_ne hja] at hcount
        exact hcount
      cases hfa : f hd with
      | none => exact ih hcount'
      | some v =>
        have hv : b ≠ v := fun he => hother hd hhd (he ▸ hfa)
        rw [List.count_cons_of_ne hv]
        exact ih hcount'

lemma jointList_count : ∀ j : Joint, jointList.count j = 1 := by decide

lemma good_msg_inj : ∀ a c : Joint, GOOD_MESSAGES a = GOOD_MESSAGES c → a = c := by decide

lemma small_msg_inj : ∀ a c : Joint, tooSmallMsg a = tooSmallMsg c → a = c := by decide

lemma large_msg_inj : ∀ a c : Joint, tooLargeMsg a = tooLargeMsg c → a = c := by decide

lemma small_ne_large : ∀ a c : Joint, tooSmallMsg a ≠ tooLargeMsg c := by decide

lemma goodOf_eq_some {live ref : AngleSet} {a : Joint} {s : String}
    (h : goodOf live ref a = some s) : s = GOOD_MESSAGES a := by
  unfold goodOf at h
  cases hla : live a with
  | none => rw [hla] at h; simp at h
  | some lv =>
    cases hra : ref a with
    | none => rw [hla, hra] at h; simp at h
    | some rv =>
      rw [hla, hra] at h
      simp only at h
      split_ifs at h
      all_goals simp_all

lemma issueOf_eq_some {live ref : AngleSet} {a : Joint} {s : String}
    (h : issueOf live ref a = some s) : s = tooSmallMsg a ∨ s = tooLargeMsg a := by
  unfold issueOf at h
  cases hla : live a with
  | none => rw [hla] at h; simp at h
  | some lv =>
    cases hra : ref a with
    | none => rw [hla, hra] at h; simp at h
    | some rv =>
      rw [hla, hra] at h
      simp only at h
      split_ifs at h
      all_goals simp_all

lemma count_good (live ref : AngleSet) (j : Joint) :
    (jointList.filterMap (goodOf live ref)).count (GOOD_MESSAGES j) =
      if goodOf live ref j = some (GOOD_MESSAGES j) then 1 else 0 := by
  split_ifs with h
  · refine count_filterMap_eq_one _ _ j h ?_ jointList (jointList_count j)
    intro a ha hfa
    exact ha (good_msg_inj a j (Eq.symm (goodOf_eq_some hfa)))
  · apply count_filterMap_eq_zero
    intro a _ hfa
    by_cases haj : a = j
    · exact h (haj ▸ hfa)
    · exact haj (good_msg_inj a j (Eq.symm (goodOf_eq_some hfa)))

lemma count_small (live ref : AngleSet) (j : Joint) :
    (jointList.filterMap (issueOf live ref)).count (tooSmallMsg j) =
      if issueOf live ref j = some (tooSmallMsg j) then 1 else 0 := by
  split_ifs with h
  · refine count_filterMap_eq_one _ _ j h ?_ jointList (jointList_count j)
    intro a ha hfa
    rcases issueOf_eq_some hfa with hsm | hlg
    · exact ha (small_msg_inj a j hsm.symm)
    · exact small_ne_large j a hlg

  · apply count_filterMap_eq_zero
    intro a _ hfa
    rcases issueOf_eq_some hfa with hsm | hlg
    · have haj : a = j := small_msg_inj a j hsm.symm
      exact h (haj ▸ hfa)
    · exact small_ne_large j a hlg

lemma count_large (live ref : AngleSet) (j : Joint) :
    (jointList.filterMap (issueOf live ref)).count (tooLargeMsg j) =
      if issueOf live ref j = some (tooLargeMsg j) then 1 else 0 := by
  split_ifs with h
  · refine count_filterMap_eq_one _ _ j h ?_ jointList (jointList_count j)
    intro a ha hfa
    rcases issueOf_eq_some hfa with hsm | hlg
    · exact small_ne_large a j hsm.symm
    · exact ha (large_msg_inj a j hlg.symm)
  · apply count_filterMap_eq_zero
    intro a _ hfa
    rcases issueOf_eq_some hfa with hsm | hlg
    · exact small_ne_large a j hsm.symm
    · have haj : a = j := large_msg_inj a j hlg.symm
      exact h (haj ▸ hfa)

/-- C6: for each joint where both angles are defined, diff = live −
reference classifies the joint — |diff| ≤ 25 emits exactly one positive
message and no issue for that joint, diff < −25 exactly its "too small"
issue, diff > 25 exactly its "too large" issue; a joint with either angle
undefined appears in neither list; the result carries the similarity
unchanged and the mean confidence rounded to 2 decimals. -/
theorem generate_feedback_spec (live ref : AngleSet) (sim conf : ℚ) (j : Joint) :
    ((generate_feedback live ref sim conf).similarity = sim ∧
     (generate_feedback live ref sim conf).confidence = pyRoundQ conf 2) ∧
    (∀ lv rv, live j = some lv → ref j = some rv →
      (|lv - rv| ≤ 25 →
        (generate_feedback live ref sim conf).good.count (GOOD_MESSAGES j) = 1 ∧
        (generate_feedback live ref sim conf).issues.count (tooSmallMsg j) = 0 ∧
        (generate_feedback live ref sim conf).issues.count (tooLargeMsg j) = 0) ∧
      (lv - rv < -25 →
        (generate_feedback live ref sim conf).issues.count (tooSmallMsg j) = 1 ∧
        (generate_feedback live ref sim conf).good.count (GOOD_MESSAGES j) = 0 ∧
        (generate_feedback live ref sim conf).issues.count (tooLargeMsg j) = 0) ∧
      (25 < lv - rv →
        (generate_feedback live ref sim conf).issues.count (tooLargeMsg j) = 1 ∧
        (generate_feedback live ref sim conf).good.count (GOOD_MESSAGES j) = 0 ∧
        (generate_feedback live ref sim conf).issues.count (tooSmallMsg j) = 0)) ∧
    ((live j = none ∨ ref j = none) →
      (generate_feedback live ref sim conf).good.count (GOOD_MESSAGES j) = 0 ∧
      (generate_feedback live ref sim conf).issues.count (tooSmallMsg j) = 0 ∧
      (generate_feedback live ref sim conf).issues.count (tooLargeMsg j) = 0) := by
  have htol : ANGLE_TOLERANCE = 25 := rfl
  refine ⟨⟨rfl, rfl⟩, ?_, ?_⟩
  · intro lv rv hlj hrj
    refine ⟨?_, ?_, ?_⟩
    · intro hin
      have hin' : |lv - rv| ≤ ANGLE_TOLERANCE := by rw [htol]; exact hin
      have hg : goodOf live ref j = some (GOOD_MESSAGES j) := by
        unfold goodOf
        rw [hlj, hrj]
        simp only
        rw [if_pos hin']
      have hi : issueOf live ref j = none := by
        unfold issueOf
        rw [hlj, hrj]
        simp only
        rw [if_pos hin']
      refine ⟨?_, ?_, ?_⟩
      · show (jointList.filterMap (goodOf live ref)).count (GOOD_MESSAGES j) = 1
        rw [count_good, if_pos hg]
      · show (jointList.filterMap (issueOf live ref)).count (tooSmallMsg j) = 0
        rw [count_small, if_neg (by rw [hi]; simp)]
      · show (jointList.filterMap (issueOf live ref)).count (tooLargeMsg j) = 0
        rw [count_large, if_neg (by rw [hi]; simp)]
    · intro hsm
      have hout : ¬(|lv - rv| ≤ ANGLE_TOLERANCE) := by
        rw [htol]
        apply not_le.mpr
        have h1 : -(lv - rv) ≤ |lv - rv| := neg_le_abs _
        linarith
      have hg : goodOf live ref j = none := by
        unfold goodOf
        rw [hlj, hrj]
        simp only
        rw [if_neg hout]
      have hi : issueOf live ref j = some (tooSmallMsg j) := by
        unfold issueOf
        rw [hlj, hrj]
        simp only
        rw [if_neg hout, if_pos (by rw [htol]; exact hsm)]
      refine ⟨?_, ?_, ?_⟩
      · show (jointList.filterMap (issueOf live ref)).count (tooSmallMsg j) = 1
        rw [count_small, if_pos hi]
      · show (jointList.filterMap (goodOf live ref)).count (GOOD_MESSAGES j) = 0
        rw [count_good, if_neg (by rw [hg]; simp)]
      · show (jointList.filterMap (issueOf live ref)).count (tooLargeMsg j) = 0
        rw [count_large, if_neg (by rw [hi]; simp [small_ne_large j j])]
    · intro hlg
      have hout : ¬(|lv - rv| ≤ ANGLE_TOLERANCE) := by
        rw [htol]
        apply not_le.mpr
        have h1 : lv - rv ≤ |lv - rv| := le_abs_self _
        linarith
      have hnot : ¬(lv - rv < -ANGLE_TOLERANCE) := by
        rw [htol]
        apply not_lt.mpr
        linarith
      have hg : goodOf live ref j = none := by
        unfold goodOf
        rw [hlj, hrj]
        simp only
        rw [if_neg hout]
      have hi : issueOf live ref j = some (tooLargeMsg j) := by
        unfold issueOf
        rw [hlj, hrj]
        simp only
        rw [if_neg hout, if_neg hnot]
      refine ⟨?_, ?_, ?_⟩
      · show (jointList.filterMap (issueOf live ref)).count (tooLargeMsg j) = 1
        rw [count_large, if_pos hi]
      · show (jointList.filterMap (goodOf live ref)).count (GOOD_MESSAGES j) = 0
        rw [count_good, if_neg (by rw [hg]; simp)]
      · show (jointList.filterMap (issueOf live ref)).count (tooSmallMsg j) = 0
        rw [count_small, if_neg (by rw [hi]; simp [Ne.symm (small_ne_large j j)])]
  · intro h
    have hg : goodOf live ref j = none := by
      unfold goodOf
      cases hl : live j <;> cases hr : ref j <;> simp_all
    have hi : issueOf live ref j = none := by
      unfold issueOf
      cases hl : live j <;> cases hr : ref j <;> simp_all
    refine ⟨?_, ?_, ?_⟩
    · show (jointList.filterMap (goodOf live ref)).count (GOOD_MESSAGES j) = 0
      rw [count_good, if_neg (by rw [hg]; simp)]
    · show (jointList.filterMap (issueOf live ref)).count (tooSmallMsg j) = 0
      rw [count_small, if_neg (by rw [hi]; simp)]
    · show (jointList.filterMap (issueOf live ref)).count (tooLargeMsg j) = 0
      rw [count_large, if_neg (by rw [hi]; simp)]

/-- Live angle set exercising every feedback branch. -/
def liveW : AngleSet := fun j =>
  match j with
  | .left_elbow => some 100
  | .right_elbow => some 50
  | .left_knee => some 150
  | .right_knee => none
  | _ => some 100

/-- Reference angle set for the feedback witness. -/
def refW : AngleSet := fun j =>
  match j with
  | .left_elbow => some 80
  | _ => some 100

/-- C6 witness: diff 20 gives exactly the positive message, diff −50
exactly the "too small" issue, diff 50 exactly the "too large" issue, an
undefined joint appears in neither list, and similarity and rounded
confidence are carried through. -/
theorem generate_feedback_spec_witness :
    ((generate_feedback liveW refW 90 (1/2)).similarity = 90 ∧
     (generate_feedback liveW refW 90 (1/2)).confidence = pyRoundQ (1/2) 2) ∧
    ((generate_feedback liveW refW 90 (1/2)).good.count
      (GOOD_MESSAGES .left_elbow) = 1 ∧
     (generate_feedback liveW refW 90 (1/2)).issues.count
      (tooSmallMsg .left_elbow) = 0 ∧
     (generate_feedback liveW refW 90 (1/2)).issues.count
      (tooLargeMsg .left_elbow) = 0) ∧
    ((generate_feedback liveW refW 90 (1/2)).issues.count
      (tooSmallMsg .right_elbow) = 1) ∧
    ((generate_feedback liveW refW 90 (1/2)).issues.count
      (tooLargeMsg .left_knee) = 1) ∧
    ((generate_feedback liveW refW 90 (1/2)).good.count
      (GOOD_MESSAGES .right_knee) = 0 ∧
     (generate_feedback liveW refW 90 (1/2)).issues.count
      (tooSmallMsg .right_knee) = 0 ∧
     (generate_feedback liveW refW 90 (1/2)).issues.count
      (tooLargeMsg .right_knee) = 0) :=
  ⟨(generate_feedback_spec liveW refW 90 (1/2) .left_elbow).1,
   ((generate_feedback_spec liveW refW 90 (1/2) .left_elbow).2.1 100 80 rfl rfl).1
     (by rw [abs_le]; constructor <;> norm_num),
   (((generate_feedback_spec liveW refW 90 (1/2) .right_elbow).2.1 50 100 rfl rfl).2.1
     (by norm_num)).1,
   (((generate_feedback_spec liveW refW 90 (1/2) .left_knee).2.1 150 100 rfl rfl).2.2
     (by norm_num)).1,
   (generate_feedback_spec liveW refW 90 (1/2) .right_knee).2.2 (Or.inl rfl)⟩

end PhysioPose
